import Mathlib

/-!
# Verification of coco-agent git extraction (`coco_agent/services/git.py`)

A shallow embedding of the git history-extraction core: rename-path
resolution (`get_path`), diff size/type classification (`_diff_size`,
`_diff_type`), the commit walker with fallback (`repo_commits_iter`),
per-commit diff assembly (`load_commit_diffs`), the record extractor
(`GitRepoExtractor`) and the ingestion pipeline (`ingest_and_store_repo`).

External collaborators are modelled explicitly:
* the version-control library (GitPython) is represented by plain data —
  a `Repo` carries the resolvable revision specs with their commit
  sequences and the remote configuration, and each `CommitObj` carries
  the collaborator-provided structural diff data;
* the identity service `tm_id` (not part of the extraction module) is
  modelled from the spec as pure, injective string encodings;
* I/O (cloning, temp dirs, logging handlers, JSONL writing) is out of
  scope: the repository handle is passed directly, log output and sink
  invocations are returned as values.
-/

/-! ## String helpers (substring search used to model Python `re` / `str.split`) -/

/-- Tests whether `pat` occurs at the head of `s`. -/
def leadMatch : List Char → List Char → Bool
  | [], _ => true
  | _ :: _, [] => false
  | p :: ps, c :: cs => p = c && leadMatch ps cs

/-- Index of the first occurrence of `pat` in `s`, if any. -/
def findSub (pat : List Char) : List Char → Option Nat
  | [] => if leadMatch pat [] then some 0 else none
  | c :: cs => if leadMatch pat (c :: cs) then some 0 else (findSub pat cs).map (· + 1)

/-- Index of the last occurrence of `pat` in `s`, if any. -/
def findLastSub (pat : List Char) : List Char → Option Nat
  | [] => if leadMatch pat [] then some 0 else none
  | c :: cs =>
    match findLastSub pat cs with
    | some i => some (i + 1)
    | none => if leadMatch pat (c :: cs) then some 0 else none

/-- The 4-character rename separator `" => "` of git's compact rename notation. -/
def arrowChars : List Char := [' ', '=', '>', ' ']

/-! ## `get_path` — RenamePathResolver

Embeds `get_path` of `coco_agent/services/git.py`, which matches
`objpath` against the Python regex

`^((?P<start>.*?)/?{)?(?P<a>.*) => .*?(}/(?P<end>.*))?$`

and joins the non-empty groups `start`, `a`, `end` with `"/"`, returning
`objpath` unchanged when the regex does not match.  Backtracking
semantics of that pattern, rendered explicitly:

* the pattern matches iff the mandatory literal `" => "` occurs in the
  input;
* the optional leading group anchors at the leftmost `{` that still has
  `" => "` somewhere after it (`start` is lazy); `start` captures the
  text before that `{`, except that a `/` immediately before the `{` is
  consumed by the `/?`;
* `a` is greedy, so it extends to the *last* `" => "` of the remainder;
* the optional trailing group anchors at the first `"}/"` after that
  `" => "` (the `.*?` before it is lazy); `end` captures everything
  after it;
* Python dots do not match a newline, while `$` matches at the end of
  the input or just before a newline ending it: an input with a newline
  anywhere but as a single final character never matches, and a single
  trailing newline is stopped before and excluded from every group. -/

/-- Position of the leftmost `'{'` that has `" => "` somewhere after it
(the anchor of the regex's optional leading group). -/
def braceIdx : List Char → Option Nat
  | [] => none
  | c :: cs =>
    if c = '{' && (findSub arrowChars cs).isSome then some 0
    else (braceIdx cs).map (· + 1)

def get_path (objpath : String) : String :=
  let cs := objpath.toList
  -- In Python `.` does not match a newline and `$` also matches just
  -- before a newline that ends the string; no token of the pattern can
  -- consume a newline, so a match exists only when the input contains no
  -- newline other than a single trailing one, which the match stops
  -- before (the trailing newline is part of no group).
  let body := if cs.getLast? = some '\n' then cs.dropLast else cs
  if (findSub ['\n'] body).isSome then objpath
  else if (findSub arrowChars body).isNone then objpath
  else
    let pr :=
      match braceIdx body with
      | some i =>
        let st := body.take i
        let st := if st.getLast? = some '/' then st.dropLast else st
        (some st, body.drop (i + 1))
      | none => ((none : Option (List Char)), body)
    let startGrp := pr.1
    let rest := pr.2
    let j := (findLastSub arrowChars rest).getD 0
    let a := rest.take j
    let tl := rest.drop (j + 4)
    let endGrp := (findSub ['}', '/'] tl).map (fun k => tl.drop (k + 2))
    let parts := ([startGrp, some a, endGrp].filterMap id).filter (· ≠ [])
    String.intercalate "/" (parts.map (fun l => String.mk l))

/-! ## ChangeClassifier — `_diff_size` and `_diff_type`

A structural diff entry as provided by the version-control collaborator
(one element of a GitPython `DiffIndex`).  A blob is modelled by its
size (`a_blob`/`b_blob` are `none` when the corresponding pre or post
image blob does not exist). -/

structure DiffEntry where
  a_path : String
  b_path : String
  a_blob : Option Int
  b_blob : Option Int
  new_file : Bool
  deleted_file : Bool
  renamed : Bool
deriving DecidableEq, Repr

/-- Embeds `_diff_size` of `coco_agent/services/git.py`: signed size of
the change from the blob sizes.  Dereferencing a missing blob (an
`AttributeError` in the source) is modelled as `none`. -/
def _diff_size (diff : DiffEntry) : Option Int :=
  if diff.b_blob.isNone && diff.deleted_file then
    diff.a_blob.map (fun s => s * (-1))
  else if diff.a_blob.isNone && diff.new_file then
    diff.b_blob
  else
    match diff.a_blob, diff.b_blob with
    | some a, some b => some (a - b)
    | _, _ => none

/-- Embeds `_diff_type` of `coco_agent/services/git.py`: single-character
change-type tag from the diff flags. -/
def _diff_type (diff : DiffEntry) : Char :=
  if diff.renamed then 'R'
  else if diff.deleted_file then 'D'
  else if diff.new_file then 'A'
  else 'M'

/-- The spec's `ChangeClassifier.classify` contract: the pair of
`_diff_size` and `_diff_type` on a diff entry with the given blob sizes
and flags (`none` when the size computation dereferences a missing
blob). -/
def classify (pre_size post_size : Option Int) (is_new is_deleted is_renamed : Bool) :
    Option (Int × Char) :=
  let d : DiffEntry :=
    { a_path := "", b_path := "", a_blob := pre_size, b_blob := post_size,
      new_file := is_new, deleted_file := is_deleted, renamed := is_renamed }
  ( _diff_size d).map (fun s => (s, _diff_type d))

/-! ## Identity service `tm_id`

Modelled from the spec: the identity service (module `tm_id`, an
external collaborator of the extraction core, not part of
`services/git.py`) is a pure function from a semantic key to a stable
opaque string identifier; any injective encoding represents it.
Arguments that the source may pass as Python `None` are `Option`s. -/

namespace tm_id

/-- Modelled from the spec: sensor identifier from customer id, source type and source id. -/
def sensor (customer_id source_type source_id : String) : String :=
  "sensor:" ++ customer_id ++ ":" ++ source_type ++ ":" ++ source_id

/-- Modelled from the spec: repository identifier derived deterministically from
customer/source/repo-name (the name may be Python `None`). -/
def git_repo (customer_id source_id : String) (repo_name : Option String) : String :=
  "repo:" ++ customer_id ++ ":" ++ source_id ++ ":" ++
    (match repo_name with | some n => n | none => "None")

/-- Modelled from the spec: commit identifier from the commit hash. -/
def git_commit (hexsha : String) : String :=
  "commit:" ++ hexsha

/-- Modelled from the spec: diff identifier from the commit hash and raw path. -/
def git_commit_diff (hexsha objpath : String) : String :=
  "commit_diff:" ++ hexsha ++ ":" ++ objpath

/-- Modelled from the spec: path object identifier from the repository id and path. -/
def git_path (repo_id : Option String) (path : String) : String :=
  "path:" ++ (match repo_id with | some r => r | none => "None") ++ ":" ++ path

end tm_id

/-! ## Python truthiness helpers -/

/-- Python truthiness of an optional string: `None` and `""` are falsy. -/
def truthy : Option String → Bool
  | none => false
  | some s => !s.isEmpty

/-- Python `a or b` on optional strings: the first operand if truthy, else the second. -/
def pyOr (a b : Option String) : Option String :=
  if truthy a then a else b

/-! ## Repository handle and commit objects (version-control collaborator)

Modelled from the spec (§6, version-control access capability): a
repository handle can resolve a revision specifier to an ordered commit
sequence and exposes its remote configuration; a commit object carries
its hash, parent hashes, author/committer identity, timestamps,
message/summary, per-file aggregate stats, the files present in its
tree, and the collaborator-provided structural diff of its first parent
against it. -/

/-- Per-file aggregate change statistics (one value of `commit.stats.files`). -/
structure Stats where
  insertions : Int
  deletions : Int
  lines : Int
deriving DecidableEq, Repr

structure CommitObj where
  hexsha : String
  /-- Hashes of the parent commits. -/
  parents : List String
  /-- Collaborator-provided structural diff of `parents[0]` against this
  commit (`commit.parents[0].diff(commit)`); meaningful only when
  `parents` is non-empty. -/
  parentDiff : List DiffEntry
  /-- Files present in the commit's tree, with their blob sizes. -/
  tree : List (String × Int)
  /-- Aggregate per-file stats, keyed by the raw (possibly rename-notated) path. -/
  stats_files : List (String × Stats)
  author_name : String
  author_email : String
  committer_name : String
  committer_email : String
  authored_date : Int
  committed_date : Int
  message : String
  summary : String
deriving DecidableEq, Repr

structure Repo where
  /-- Resolvable revision specs, each mapped to its commit sequence in
  git's default (newest-first) order; an absent spec models the
  `GitCommandError` raised for an unknown revision. -/
  revs : List (String × List CommitObj)
  /-- Remote configuration: remote name mapped to its URL. -/
  remotes : List (String × String)
deriving Repr

/-- Modelled from the spec (§6): `repo.iter_commits(rev, reverse=reverse)` —
resolve a revision spec to its commit sequence (`none` for an unknown
revision).  `reverse := true` (git `rev-list --reverse`) yields
oldest-first order. -/
def iter_commits (repo : Repo) (rev : String) (reverse : Bool) : Option (List CommitObj) :=
  (repo.revs.lookup rev).map (fun cs => if reverse then cs.reverse else cs)

/-! ## Module-level helpers of `coco_agent/services/git.py` -/

def GIT_SOURCE_TYPE : String := "git"
def GIT_COMMIT_TYPE : String := "git_commits"
def GIT_COMMIT_DIFF_TYPE : String := "git_commit_diffs"
def GIT_REPO_TYPE : String := "git_repos"

/-- Text before the first occurrence of `pat` (models Python `s.split(pat)[0]`). -/
def pySplitFirst (pat s : String) : String :=
  match findSub pat.toList s.toList with
  | some i => String.mk (s.toList.take i)
  | none => s

/-- Text after the last `'/'` (models Python `s.split("/")[-1]`). -/
def lastSlashSeg (s : String) : String :=
  match findLastSub ['/'] s.toList with
  | some j => String.mk (s.toList.drop (j + 1))
  | none => s

/-- Python `s.endswith(suff)`: `suff` is a suffix of `s` (checked on the
reversed character lists). -/
def strEndsWith (s suff : String) : Bool :=
  leadMatch suff.toList.reverse s.toList.reverse

/-- Embeds `get_repo_name_from_remote` of `coco_agent/services/git.py`. -/
def get_repo_name_from_remote (repo : Repo) : Option String :=
  if repo.remotes.isEmpty then none
  else
    match repo.remotes.lookup "origin" with
    | none => none
    | some url =>
      if !strEndsWith url ".git" then none
      else some (lastSlashSeg (pySplitFirst ".git" url))

/-- Embeds `get_repo_url_from_remote` of `coco_agent/services/git.py`. -/
def get_repo_url_from_remote (repo : Repo) (remote : String) : Option String :=
  if repo.remotes.isEmpty then none
  else repo.remotes.lookup remote

/-- Embeds `repo_commits_iter` of `coco_agent/services/git.py`: iterate the
commits of `rev`; on a resolution failure (`GitCommandError`), retry
once with `fallback_rev` if provided — the recursive call passes the
fallback positionally as `rev`, leaving `fallback_rev = None` and
`reverse` at its default `True` — else produce the empty sequence. -/
def repo_commits_iter (repo : Repo) (rev : String) (fallback_rev : Option String)
    (reverse : Bool) : List CommitObj :=
  match iter_commits repo rev reverse with
  | some commits => commits
  | none =>
    match fallback_rev with
    | some fb =>
      -- The source's recursive call `repo_commits_iter(repo, fallback_rev)`
      -- runs with `fallback_rev = None` and `reverse = True`; unrolled at
      -- that instance it is exactly the following match (the recursion
      -- never goes deeper than one level).
      match iter_commits repo fb true with
      | some commits => commits
      | none => []
    | none => []

/-! ## DiffAssembler — `GitRepoExtractor.load_commit_diffs` -/

/-- Modelled from the spec (§4.4, §6): `commit.diff()` for a commit with
no parents is the structural diff of the commit against the empty tree —
every file present in the commit appears as an added entry (no pre-image
blob, post-image blob present, `new_file` set, not deleted, not
renamed). -/
def emptyTreeDiff (tree : List (String × Int)) : List DiffEntry :=
  tree.map (fun pe =>
    { a_path := pe.1, b_path := pe.1, a_blob := none, b_blob := some pe.2,
      new_file := true, deleted_file := false, renamed := false })

/-- The structural diff entries used by `load_commit_diffs` for one commit:
`commit.parents[0].diff(commit) if commit.parents else commit.diff()`. -/
def commitDiffEntries (commit : CommitObj) : List DiffEntry :=
  if commit.parents.isEmpty then emptyTreeDiff commit.tree else commit.parentDiff

/-- The dict `{diff.a_path: diff for diff in diffs}` followed by `.get(k)`:
the last diff entry whose `a_path` is `k`, if any. -/
def diffsByAPath (ds : List DiffEntry) (k : String) : Option DiffEntry :=
  (ds.filter (fun d => d.a_path = k)).getLast?

/-- One assembled diff record: the per-file `stats` dict after the
`stats.update({...})` of `load_commit_diffs`. -/
structure DiffRec where
  insertions : Int
  deletions : Int
  lines : Int
  tm_id : String
  sensor_id : String
  repo_id : Option String
  a_path : String
  b_path : String
  a_object_id : String
  b_object_id : String
  commit_id : String
  size_delta : Option Int
  type : Char
deriving DecidableEq, Repr

/-- The record yielded by `load_commit_diffs` for one matched stats entry
(the `stats.update({...})` call). -/
def mkDiffRec (sensor_id : String) (repo_tm_id : Option String) (hexsha objpath : String)
    (stats : Stats) (diff : DiffEntry) : DiffRec :=
  { insertions := stats.insertions, deletions := stats.deletions, lines := stats.lines,
    tm_id := tm_id.git_commit_diff hexsha objpath,
    sensor_id := sensor_id,
    repo_id := repo_tm_id,
    a_path := diff.a_path, b_path := diff.b_path,
    a_object_id := tm_id.git_path repo_tm_id diff.a_path,
    b_object_id := tm_id.git_path repo_tm_id diff.b_path,
    commit_id := tm_id.git_commit hexsha,
    size_delta := _diff_size diff,
    type := _diff_type diff }

/-- Embeds `GitRepoExtractor.load_commit_diffs` of `coco_agent/services/git.py`:
for each `(objpath, stats)` of `commit.stats.files`, look the canonical
path up among the structural diff entries; if absent, log at debug level
and skip (the second component collects the canonical paths so logged),
else yield the assembled record. -/
def load_commit_diffs (sensor_id : String) (repo_tm_id : Option String) (commit : CommitObj) :
    List DiffRec × List String :=
  let ds := commitDiffEntries commit
  commit.stats_files.foldr
    (fun e acc =>
      match diffsByAPath ds (get_path e.1) with
      | none => (acc.1, get_path e.1 :: acc.2)
      | some d => (mkDiffRec sensor_id repo_tm_id commit.hexsha e.1 e.2 d :: acc.1, acc.2))
    ([], [])

/-! ## RepoExtractor — `GitRepoExtractor` -/

/-- A sensor object (`sensor.customer_id`, `sensor.source_id`, `sensor.tm_id`). -/
structure Sensor where
  customer_id : String
  source_id : String
  tm_id : String
deriving DecidableEq, Repr

/-- The extractor state after `GitRepoExtractor.__init__` (the repository
handle replaces `clone_url_or_path`: cloning and temp-dir management are
I/O, out of scope). -/
structure GitRepoExtractor where
  customer_id : String
  source_id : String
  sensor_id : String
  repo_tm_id : Option String
  forced_repo_name : Option String
  autogenerate_repo_id : Bool
  repo_link_url : Option String
  use_repo_link_from_remote : Bool
deriving DecidableEq, Repr

/-- Embeds `GitRepoExtractor.__init__` of `coco_agent/services/git.py`:
validates the identity configuration (a `ValueError` is an `Except.error`)
and captures the extractor state. -/
def GitRepoExtractor.init (sensor : Option Sensor)
    (customer_id source_id repo_tm_id forced_repo_name : Option String)
    (autogenerate_repo_id : Bool) (repo_link_url : Option String)
    (use_repo_link_url_from_remote : Bool) : Except String GitRepoExtractor :=
  if sensor.isNone && (!truthy customer_id || !truthy source_id) then
    .error "Must either provide a sensor, or both customer and source ids"
  else if !truthy repo_tm_id && !autogenerate_repo_id then
    .error "No repo id given or auto-gen requested"
  else
    .ok {
      customer_id := match sensor with | some s => s.customer_id | none => customer_id.getD ""
      source_id := match sensor with | some s => s.source_id | none => source_id.getD ""
      sensor_id := match sensor with
        | some s => s.tm_id
        | none => tm_id.sensor (customer_id.getD "") GIT_SOURCE_TYPE (source_id.getD "")
      repo_tm_id := repo_tm_id
      forced_repo_name := forced_repo_name
      autogenerate_repo_id := autogenerate_repo_id
      repo_link_url := repo_link_url
      use_repo_link_from_remote := use_repo_link_url_from_remote }

/-- Embeds `GitRepoExtractor.generate_repo_id_from_remote_name` of
`coco_agent/services/git.py`. -/
def GitRepoExtractor.generate_repo_id_from_remote_name (self : GitRepoExtractor)
    (repo : Repo) : String :=
  tm_id.git_repo self.customer_id self.source_id (get_repo_name_from_remote repo)

/-- One commit record as assembled by `extract_commits_and_history`
(dotted Python keys such as `author.name` become underscored fields). -/
structure CommitRec where
  tm_id : String
  sensor_id : String
  repo_id : Option String
  diffs : List DiffRec
  author_name : String
  author_email : String
  committer_name : String
  committer_email : String
  parents : List String
  hexsha : String
  authored_date : Int
  committed_date : Int
  message : String
  summary : String
deriving DecidableEq, Repr

/-- A commit record after the pipeline removed the embedded `diffs` list
(`del commit["diffs"]`). -/
structure CommitOut where
  tm_id : String
  sensor_id : String
  repo_id : Option String
  author_name : String
  author_email : String
  committer_name : String
  committer_email : String
  parents : List String
  hexsha : String
  authored_date : Int
  committed_date : Int
  message : String
  summary : String
deriving DecidableEq, Repr

/-- Models `del commit["diffs"]`: the commit record without its embedded diff list. -/
def stripDiffs (c : CommitRec) : CommitOut :=
  { tm_id := c.tm_id, sensor_id := c.sensor_id, repo_id := c.repo_id,
    author_name := c.author_name, author_email := c.author_email,
    committer_name := c.committer_name, committer_email := c.committer_email,
    parents := c.parents, hexsha := c.hexsha,
    authored_date := c.authored_date, committed_date := c.committed_date,
    message := c.message, summary := c.summary }

/-- Embeds `GitRepoExtractor.extract_commits_and_history` of
`coco_agent/services/git.py` (the call site passes `reverse` at its
default `True`). -/
def extract_commits_and_history (sensor_id : String) (repo : Repo)
    (repo_tm_id : Option String) (rev : String) (fallback_rev : Option String) :
    List CommitRec :=
  (repo_commits_iter repo rev fallback_rev true).map (fun c =>
    { tm_id := tm_id.git_commit c.hexsha,
      sensor_id := sensor_id,
      repo_id := repo_tm_id,
      diffs := (load_commit_diffs sensor_id repo_tm_id c).1,
      author_name := c.author_name, author_email := c.author_email,
      committer_name := c.committer_name, committer_email := c.committer_email,
      parents := c.parents.map tm_id.git_commit,
      hexsha := c.hexsha,
      authored_date := c.authored_date, committed_date := c.committed_date,
      message := c.message, summary := c.summary })

/-- The repository record yielded last by `GitRepoExtractor.__call__`. -/
structure RepoRec where
  tm_id : Option String
  sensor_id : String
  name : String
  url : Option String
deriving DecidableEq, Repr

/-- One yielded `(rec type, record)` 2-tuple of `GitRepoExtractor.__call__`. -/
inductive TypedRec where
  | commit (c : CommitRec)
  | repo (r : RepoRec)
deriving DecidableEq, Repr

/-- The record-type string paired with each yielded record. -/
def TypedRec.recType : TypedRec → String
  | .commit _ => GIT_COMMIT_TYPE
  | .repo _ => GIT_REPO_TYPE

/-- Embeds `GitRepoExtractor.__call__` of `coco_agent/services/git.py`:
resolve the repository name (a `ValueError` when unresolvable, before
any record is emitted), resolve or auto-generate the repository id, emit
all commit records, then the single repo record. -/
def GitRepoExtractor.call (self : GitRepoExtractor) (repo : Repo) (rev : String)
    (fallback_rev : Option String) : Except String (List TypedRec) :=
  let repo_name := pyOr self.forced_repo_name (get_repo_name_from_remote repo)
  if !truthy repo_name then .error "Could not infer repo name from remote"
  else
    let repo_tm_id :=
      if !truthy self.repo_tm_id && self.autogenerate_repo_id then
        some (self.generate_repo_id_from_remote_name repo)
      else self.repo_tm_id
    let commits := extract_commits_and_history self.sensor_id repo repo_tm_id rev fallback_rev
    let repo_link_url :=
      if !truthy self.repo_link_url && self.use_repo_link_from_remote then
        get_repo_url_from_remote repo "origin"
      else self.repo_link_url
    .ok (commits.map TypedRec.commit ++
      [TypedRec.repo {
        tm_id := repo_tm_id,
        sensor_id := self.sensor_id,
        name := repo_name.getD "",
        url := repo_link_url }])

/-! ## IngestionPipeline — `ingest_and_store_repo` -/

/-- The payload of one `store_fn` invocation. -/
inductive StorePayload where
  | repos (rs : List RepoRec)
  | commits (cs : List CommitOut)
  | diffs (ds : List DiffRec)
deriving DecidableEq, Repr

/-- One `store_fn(type_, id_, records)` invocation of `ingest_and_store_repo`. -/
structure StoreCall where
  rec_type : String
  id_ : Option String
  payload : StorePayload
deriving DecidableEq, Repr

/-- The commit records collected by the ingestion loop. -/
def commitRecsOf (records : List TypedRec) : List CommitRec :=
  records.filterMap (fun r => match r with | .commit c => some c | .repo _ => none)

/-- The repo records collected by the ingestion loop. -/
def repoRecsOf (records : List TypedRec) : List RepoRec :=
  records.filterMap (fun r => match r with | .commit _ => none | .repo r => some r)

/-- The sort key `lambda c: c["authored_date"]` of the pipeline's
`sorted` call, as an order relation on commit records. -/
def commitOrder (a b : CommitRec) : Prop :=
  a.authored_date ≤ b.authored_date

instance : DecidableRel commitOrder :=
  fun a b => inferInstanceAs (Decidable (a.authored_date ≤ b.authored_date))

instance : IsTotal CommitRec commitOrder :=
  ⟨fun a b => le_total a.authored_date b.authored_date⟩

instance : IsTrans CommitRec commitOrder :=
  ⟨fun _ _ _ h1 h2 => le_trans h1 h2⟩

/-- The record-consuming half of `ingest_and_store_repo` of
`coco_agent/services/git.py`: collect records by kind, assert at most
one repo record (`AssertionError`), take `repos[0]` (`IndexError` on an
empty list), sort commits by `authored_date`, flatten the embedded diff
lists out of the commit records, and invoke the sink once per kind,
keyed by the repo record's `tm_id`.  An `Except.error` aborts with no
sink invocation. -/
def pipeline (records : List TypedRec) : Except String (List StoreCall) :=
  let commits := commitRecsOf records
  let repos := repoRecsOf records
  if 2 ≤ repos.length then .error "Did not expect more than one repo record"
  else
    match repos with
    | [] => .error "list index out of range"
    | repo :: _ =>
      -- `sorted` in Python is a stable sort; a stable sort's output is
      -- uniquely determined, so the structurally recursive stable
      -- insertion sort models it exactly.
      let sortedCommits := List.insertionSort commitOrder commits
      let commit_diffs := (sortedCommits.map (fun c => c.diffs)).flatten
      .ok [⟨GIT_REPO_TYPE, repo.tm_id, .repos repos⟩,
           ⟨GIT_COMMIT_TYPE, repo.tm_id, .commits (sortedCommits.map stripDiffs)⟩,
           ⟨GIT_COMMIT_DIFF_TYPE, repo.tm_id, .diffs commit_diffs⟩]

/-- Embeds `ingest_and_store_repo` of `coco_agent/services/git.py`
(`store_fn` invocations are returned as values; the repository handle
replaces `repo_path`). -/
def ingest_and_store_repo (customer_id source_id : String) (repo : Repo) (branch : String)
    (fallback_branch forced_repo_name : Option String) : Except String (List StoreCall) :=
  match GitRepoExtractor.init none (some customer_id) (some source_id) none
      forced_repo_name true none true with
  | .error e => .error e
  | .ok extractor =>
    match extractor.call repo branch fallback_branch with
    | .error e => .error e
    | .ok records => pipeline records

/-! ## Concrete test fixtures

A small concrete repository used to instantiate the theorems: three
commits touching five distinct files in total, no renames and no
deletions, listed under the revision spec `"master"` in an unsorted
order, with an `origin` remote whose URL ends in `.git`. -/

def cObj1 : CommitObj :=
  { hexsha := "c1", parents := [], parentDiff := [],
    tree := [("a.txt", 10), ("b.txt", 20)],
    stats_files := [("a.txt", ⟨1, 0, 1⟩), ("b.txt", ⟨2, 0, 2⟩)],
    author_name := "ann", author_email := "ann@x", committer_name := "cal",
    committer_email := "cal@x", authored_date := 100, committed_date := 101,
    message := "m1", summary := "s1" }

def cObj2 : CommitObj :=
  { hexsha := "c2", parents := ["c1"],
    parentDiff := [{ a_path := "c.txt", b_path := "c.txt", a_blob := none,
                     b_blob := some 5, new_file := true, deleted_file := false,
                     renamed := false }],
    tree := [("a.txt", 10), ("b.txt", 20), ("c.txt", 5)],
    stats_files := [("c.txt", ⟨3, 0, 3⟩)],
    author_name := "ann", author_email := "ann@x", committer_name := "cal",
    committer_email := "cal@x", authored_date := 200, committed_date := 201,
    message := "m2", summary := "s2" }

def cObj3 : CommitObj :=
  { hexsha := "c3", parents := ["c2"],
    parentDiff := [{ a_path := "d.txt", b_path := "d.txt", a_blob := none,
                     b_blob := some 7, new_file := true, deleted_file := false,
                     renamed := false },
                   { a_path := "e.txt", b_path := "e.txt", a_blob := none,
                     b_blob := some 9, new_file := true, deleted_file := false,
                     renamed := false }],
    tree := [("a.txt", 10), ("b.txt", 20), ("c.txt", 5), ("d.txt", 7), ("e.txt", 9)],
    stats_files := [("d.txt", ⟨4, 0, 4⟩), ("e.txt", ⟨5, 0, 5⟩)],
    author_name := "ann", author_email := "ann@x", committer_name := "cal",
    committer_email := "cal@x", authored_date := 300, committed_date := 301,
    message := "m3", summary := "s3" }

def repoEx : Repo :=
  { revs := [("master", [cObj2, cObj3, cObj1])],
    remotes := [("origin", "https://example.com/demo.git")] }

/-- A repository whose only resolvable spec is `"main"`, with two
distinguishable commits, used against the walker's fallback path. -/
def cObjA : CommitObj :=
  { hexsha := "a", parents := [], parentDiff := [], tree := [], stats_files := [],
    author_name := "", author_email := "", committer_name := "", committer_email := "",
    authored_date := 1, committed_date := 1, message := "", summary := "" }

def cObjB : CommitObj :=
  { cObjA with hexsha := "b", authored_date := 2 }

def repoFb : Repo :=
  { revs := [("main", [cObjB, cObjA])], remotes := [] }

/-- The extractor configuration `ingest_and_store_repo` builds for the
concrete scenario (no sensor, customer and source ids given, repo id
auto-generated, no forced name). -/
def extractorEx : GitRepoExtractor :=
  { customer_id := "cust", source_id := "src1",
    sensor_id := tm_id.sensor "cust" GIT_SOURCE_TYPE "src1",
    repo_tm_id := none, forced_repo_name := none, autogenerate_repo_id := true,
    repo_link_url := none, use_repo_link_from_remote := true }

/-- A repository whose `origin` URL does not end in `.git`. -/
def repoNoGit : Repo :=
  { revs := [], remotes := [("origin", "https://example.com/demo")] }

/-- The record stream produced by the concrete extraction run. -/
def recordsEx : List TypedRec :=
  match extractorEx.call repoEx "master" none with
  | .ok rs => rs
  | .error _ => []

/-- Expected repo record of the concrete scenario. -/
def repoRecEx : RepoRec :=
  { tm_id := some "repo:cust:src1:demo", sensor_id := "sensor:cust:git:src1",
    name := "demo", url := some "https://example.com/demo.git" }

/-- Expected commit records (diff lists removed, sorted by
`authored_date`) of the concrete scenario. -/
def commitOutsEx : List CommitOut :=
  [{ tm_id := "commit:c1", sensor_id := "sensor:cust:git:src1",
     repo_id := some "repo:cust:src1:demo", author_name := "ann", author_email := "ann@x",
     committer_name := "cal", committer_email := "cal@x", parents := [], hexsha := "c1",
     authored_date := 100, committed_date := 101, message := "m1", summary := "s1" },
   { tm_id := "commit:c2", sensor_id := "sensor:cust:git:src1",
     repo_id := some "repo:cust:src1:demo", author_name := "ann", author_email := "ann@x",
     committer_name := "cal", committer_email := "cal@x", parents := ["commit:c1"],
     hexsha := "c2", authored_date := 200, committed_date := 201, message := "m2",
     summary := "s2" },
   { tm_id := "commit:c3", sensor_id := "sensor:cust:git:src1",
     repo_id := some "repo:cust:src1:demo", author_name := "ann", author_email := "ann@x",
     committer_name := "cal", committer_email := "cal@x", parents := ["commit:c2"],
     hexsha := "c3", authored_date := 300, committed_date := 301, message := "m3",
     summary := "s3" }]

/-- Expected flattened diff records of the concrete scenario: one per
touched file, five in total. -/
def diffRecsEx : List DiffRec :=
  [{ insertions := 1, deletions := 0, lines := 1, tm_id := "commit_diff:c1:a.txt",
     sensor_id := "sensor:cust:git:src1", repo_id := some "repo:cust:src1:demo",
     a_path := "a.txt", b_path := "a.txt",
     a_object_id := "path:repo:cust:src1:demo:a.txt",
     b_object_id := "path:repo:cust:src1:demo:a.txt",
     commit_id := "commit:c1", size_delta := some 10, type := 'A' },
   { insertions := 2, deletions := 0, lines := 2, tm_id := "commit_diff:c1:b.txt",
     sensor_id := "sensor:cust:git:src1", repo_id := some "repo:cust:src1:demo",
     a_path := "b.txt", b_path := "b.txt",
     a_object_id := "path:repo:cust:src1:demo:b.txt",
     b_object_id := "path:repo:cust:src1:demo:b.txt",
     commit_id := "commit:c1", size_delta := some 20, type := 'A' },
   { insertions := 3, deletions := 0, lines := 3, tm_id := "commit_diff:c2:c.txt",
     sensor_id := "sensor:cust:git:src1", repo_id := some "repo:cust:src1:demo",
     a_path := "c.txt", b_path := "c.txt",
     a_object_id := "path:repo:cust:src1:demo:c.txt",
     b_object_id := "path:repo:cust:src1:demo:c.txt",
     commit_id := "commit:c2", size_delta := some 5, type := 'A' },
   { insertions := 4, deletions := 0, lines := 4, tm_id := "commit_diff:c3:d.txt",
     sensor_id := "sensor:cust:git:src1", repo_id := some "repo:cust:src1:demo",
     a_path := "d.txt", b_path := "d.txt",
     a_object_id := "path:repo:cust:src1:demo:d.txt",
     b_object_id := "path:repo:cust:src1:demo:d.txt",
     commit_id := "commit:c3", size_delta := some 7, type := 'A' },
   { insertions := 5, deletions := 0, lines := 5, tm_id := "commit_diff:c3:e.txt",
     sensor_id := "sensor:cust:git:src1", repo_id := some "repo:cust:src1:demo",
     a_path := "e.txt", b_path := "e.txt",
     a_object_id := "path:repo:cust:src1:demo:e.txt",
     b_object_id := "path:repo:cust:src1:demo:e.txt",
     commit_id := "commit:c3", size_delta := some 9, type := 'A' }]

/-! ## Theorems -/

/-- C3: `classify` follows the three size rules (deletion: `-pre_size`,
addition: `post_size`, otherwise `pre_size - post_size`) and the
change-type precedence `R` > `D` > `A` > `M`, with rename taking
precedence even when a deletion/addition size rule fired; in particular
`classify(120, None, False, True, False) = (-120, 'D')` and
`classify(None, 80, True, False, False) = (80, 'A')`. -/
theorem classify_size_rules_and_type_precedence :
    (∀ (pre : Int) (is_new is_renamed : Bool),
        classify (some pre) none is_new true is_renamed
          = some (-pre, if is_renamed then 'R' else 'D'))
  ∧ (∀ (post : Int) (is_deleted is_renamed : Bool),
        classify none (some post) true is_deleted is_renamed
          = some (post, if is_renamed then 'R' else if is_deleted then 'D' else 'A'))
  ∧ (∀ (a b : Int) (is_new is_deleted is_renamed : Bool),
        classify (some a) (some b) is_new is_deleted is_renamed
          = some (a - b,
              if is_renamed then 'R' else if is_deleted then 'D'
              else if is_new then 'A' else 'M'))
  ∧ classify (some 120) none false true false = some (-120, 'D')
  ∧ classify none (some 80) true false false = some (80, 'A') := by
  refine ⟨?_, ?_, ?_, by decide, by decide⟩
  · intro pre is_new is_renamed
    cases is_new <;> cases is_renamed <;>
      simp [classify, _diff_size, _diff_type, mul_comm]
  · intro post is_deleted is_renamed
    cases is_deleted <;> cases is_renamed <;>
      simp [classify, _diff_size, _diff_type]
  · intro a b is_new is_deleted is_renamed
    cases is_new <;> cases is_deleted <;> cases is_renamed <;>
      simp [classify, _diff_size, _diff_type]

/-! ### Lemmas about the substring-search helpers -/

theorem leadMatch_length {pat s : List Char} (h : leadMatch pat s = true) :
    pat.length ≤ s.length := by
  induction pat generalizing s with
  | nil => simp
  | cons p ps ih =>
    cases s with
    | nil => simp [leadMatch] at h
    | cons c cs =>
      simp only [leadMatch, Bool.and_eq_true] at h
      simpa using ih h.2

theorem findLastSub_leadMatch {pat cs : List Char} {j : Nat}
    (h : findLastSub pat cs = some j) : leadMatch pat (cs.drop j) = true := by
  induction cs generalizing j with
  | nil =>
    simp only [findLastSub] at h
    by_cases hc : leadMatch pat [] = true
    · rw [if_pos hc] at h; cases h; simpa using hc
    · rw [if_neg hc] at h; cases h
  | cons c cs ih =>
    cases hfl : findLastSub pat cs with
    | some i =>
      simp only [findLastSub, hfl] at h
      cases h
      simpa using ih hfl
    | none =>
      simp only [findLastSub, hfl] at h
      by_cases hc : leadMatch pat (c :: cs) = true
      · rw [if_pos hc] at h; cases h; simpa using hc
      · rw [if_neg hc] at h; cases h

theorem findLastSub_isSome_of_findSub {pat cs : List Char}
    (h : (findSub pat cs).isSome = true) : (findLastSub pat cs).isSome = true := by
  induction cs with
  | nil => simpa [findSub, findLastSub] using h
  | cons c cs ih =>
    cases hfl : findLastSub pat cs with
    | some i => simp [findLastSub, hfl]
    | none =>
      simp only [findLastSub, hfl]
      simp only [findSub] at h
      by_cases hc : leadMatch pat (c :: cs) = true
      · simp [hc]
      · rw [if_neg hc] at h
        cases hfs : findSub pat cs with
        | some i =>
          have := ih (by simp [hfs])
          simp [hfl] at this
        | none => rw [hfs] at h; simp at h

theorem braceIdx_eq_none {cs : List Char} (h : ∀ c ∈ cs, c ≠ '{') :
    braceIdx cs = none := by
  induction cs with
  | nil => rfl
  | cons c cs ih =>
    have hc : c ≠ '{' := h c (by simp)
    simp only [braceIdx]
    rw [if_neg (by simp [hc]), ih (fun c hm => h c (by simp [hm]))]
    rfl

theorem findSub_head_none {p : Char} {ps cs : List Char} (h : ∀ c ∈ cs, c ≠ p) :
    findSub (p :: ps) cs = none := by
  induction cs with
  | nil => simp [findSub, leadMatch]
  | cons c cs ih =>
    have hc : ¬ p = c := fun hh => h c (by simp) hh.symm
    simp only [findSub, leadMatch]
    rw [if_neg (by simp [hc]), ih (fun x hm => h x (by simp [hm]))]
    rfl

theorem mem_of_getLast?_eq {α : Type} {l : List α} {a : α}
    (h : l.getLast? = some a) : a ∈ l := by
  induction l with
  | nil => simp [List.getLast?] at h
  | cons x l ih =>
    cases l with
    | nil => simp_all
    | cons y l => rw [List.getLast?_cons_cons] at h; exact List.mem_cons_of_mem x (ih h)

theorem leadMatch_of_dropLast {pat xs : List Char}
    (h : leadMatch pat xs.dropLast = true) : leadMatch pat xs = true := by
  induction pat generalizing xs with
  | nil => rfl
  | cons p ps ih =>
    cases xs with
    | nil => simpa using h
    | cons c cs =>
      cases cs with
      | nil => simp [List.dropLast, leadMatch] at h
      | cons c2 cs2 =>
        have hd : (c :: c2 :: cs2).dropLast = c :: (c2 :: cs2).dropLast := rfl
        rw [hd] at h
        simp only [leadMatch, Bool.and_eq_true] at h ⊢
        exact ⟨h.1, ih h.2⟩

theorem findSub_isSome_of_dropLast {pat : List Char} {xs : List Char}
    (h : (findSub pat xs.dropLast).isSome = true) : (findSub pat xs).isSome = true := by
  induction xs with
  | nil => simpa using h
  | cons c cs ih =>
    cases cs with
    | nil =>
      cases pat with
      | nil => simp [findSub, leadMatch]
      | cons p ps => simp [findSub, leadMatch] at h
    | cons c2 cs2 =>
      have hd : (c :: c2 :: cs2).dropLast = c :: (c2 :: cs2).dropLast := rfl
      rw [hd] at h
      by_cases hlm : leadMatch pat (c :: (c2 :: cs2).dropLast) = true
      · have hfull : leadMatch pat (c :: c2 :: cs2) = true :=
          @leadMatch_of_dropLast pat (c :: c2 :: cs2) (by rw [hd]; exact hlm)
        simp [findSub, hfull]
      · simp only [findSub] at h ⊢
        rw [if_neg hlm] at h
        by_cases hlm2 : leadMatch pat (c :: c2 :: cs2) = true
        · simp [hlm2]
        · rw [if_neg hlm2]
          rw [Option.isSome_map'] at h ⊢
          exact ih h

/-! ### Characterization of `get_path` on brace-free inputs -/

theorem get_path_no_brace (s : String)
    (harrow : (findSub arrowChars s.toList).isSome = true)
    (hok : ∀ c ∈ s.toList, c ≠ '{' ∧ c ≠ '}' ∧ c ≠ '\n') :
    get_path s = String.mk (s.toList.take ((findLastSub arrowChars s.toList).getD 0)) := by
  obtain ⟨i, hi⟩ := Option.isSome_iff_exists.mp harrow
  have hnb : braceIdx s.toList = none := braceIdx_eq_none fun c hm => (hok c hm).1
  have hcb : ∀ k : Nat, findSub ['}', '/'] (s.toList.drop k) = none := fun k =>
    findSub_head_none fun c hm => (hok c (List.mem_of_mem_drop hm)).2.1
  have hlast : ¬ s.toList.getLast? = some '\n' :=
    fun hg => (hok '\n' (mem_of_getLast?_eq hg)).2.2 rfl
  have hnl : findSub ['\n'] s.toList = none :=
    findSub_head_none fun c hm => (hok c hm).2.2
  by_cases ha : s.toList.take ((findLastSub arrowChars s.toList).getD 0) = []
  all_goals simp only [String.toList] at hi hnb hcb ha hlast hnl ⊢
  · simp [get_path, hi, hnb, hcb, ha, hlast, hnl]
    rfl
  · simp [get_path, hi, hnb, hcb, ha, hlast, hnl]
    rfl

theorem get_path_shortens (s : String)
    (harrow : (findSub arrowChars s.toList).isSome = true)
    (hok : ∀ c ∈ s.toList, c ≠ '{' ∧ c ≠ '}' ∧ c ≠ '\n') :
    get_path s ≠ s := by
  have hmain := get_path_no_brace s harrow hok
  obtain ⟨j, hj⟩ := Option.isSome_iff_exists.mp (findLastSub_isSome_of_findSub harrow)
  have hlen : arrowChars.length ≤ (s.toList.drop j).length :=
    leadMatch_length (findLastSub_leadMatch hj)
  simp only [arrowChars, List.length_cons, List.length_nil, List.length_drop] at hlen
  intro heq
  rw [hmain, hj] at heq
  have hdata : s.toList.take j = s.toList := by
    simpa [String.toList] using congrArg String.data heq
  have hlen2 := congrArg List.length hdata
  simp only [List.length_take] at hlen2
  omega

/-- C6: `get_path` resolves `"{old => new}/file.txt"` to `"old/file.txt"`
and `"src/{a => b}"` to `"src/a"` (absent prefix/suffix segments are
treated as empty, not inserted literally), and returns any input the
rename pattern does not match — i.e. any input without the mandatory
`" => "` separator — unchanged. -/
theorem resolve_rename_examples_and_pass_through :
    get_path "{old => new}/file.txt" = "old/file.txt"
  ∧ get_path "src/{a => b}" = "src/a"
  ∧ get_path "unchanged/path.txt" = "unchanged/path.txt"
  ∧ ∀ s : String, findSub arrowChars s.toList = none → get_path s = s := by
  refine ⟨by rfl, by rfl, by rfl, ?_⟩
  intro s h
  simp only [String.toList] at h
  by_cases hl : s.data.getLast? = some '\n'
  · cases hc : findSub ['\n'] s.data.dropLast with
    | some i => simp [get_path, hl, hc]
    | none =>
      have hdl : findSub arrowChars s.data.dropLast = none := by
        cases hfs : findSub arrowChars s.data.dropLast with
        | none => rfl
        | some i =>
          have hsome := @findSub_isSome_of_dropLast arrowChars s.data (by simp [hfs])
          rw [h] at hsome
          simp at hsome
      simp [get_path, hl, hc, hdl]
  · cases hc : findSub ['\n'] s.data with
    | some i => simp [get_path, hl, hc]
    | none => simp [get_path, hl, hc, h]

/-- Witness for C6: the pass-through conjunct applied at the concrete
input `"unchanged/path.txt"`, whose character list contains no `" => "`. -/
theorem resolve_rename_pass_through_witness :
    get_path "unchanged/path.txt" = "unchanged/path.txt" :=
  resolve_rename_examples_and_pass_through.2.2.2 "unchanged/path.txt" (by rfl)

/-- C9 counterexample: `"a => b\nc"` contains the substring `" => "`
and no brace anywhere, yet the rename pattern fails to match it (no
token of the regex can consume the interior newline), so `get_path`
returns it unchanged — it is neither truncated to the text before the
last `" => "` (which would be `"a"`) nor rewritten at all.  The claim
that *any* input containing `" => "` matches and is rewritten is false. -/
theorem resolve_newline_passes_through :
    (findSub arrowChars "a => b\nc".toList).isSome = true
  ∧ (∀ c ∈ "a => b\nc".toList, c ≠ '{' ∧ c ≠ '}')
  ∧ get_path "a => b\nc" = "a => b\nc" :=
  ⟨by rfl, by decide, by rfl⟩

/-- C9 (amended): `get_path` is not a pass-through for every input
without braces: any *newline-free* input that contains `" => "` (even
with no `'{'`/`'}'` anywhere) matches the rename pattern and is
truncated to the text before the last `" => "` — in particular
`get_path "a => b" = "a"` — so such a literal path is rewritten, never
returned unchanged. -/
theorem resolve_rewrites_braceless_arrow :
    (∀ s : String, (findSub arrowChars s.toList).isSome = true →
        (∀ c ∈ s.toList, c ≠ '{' ∧ c ≠ '}' ∧ c ≠ '\n') →
        get_path s = String.mk (s.toList.take ((findLastSub arrowChars s.toList).getD 0))
        ∧ get_path s ≠ s)
  ∧ get_path "a => b" = "a" :=
  ⟨fun s h1 h2 => ⟨get_path_no_brace s h1 h2, get_path_shortens s h1 h2⟩, by rfl⟩

/-- Witness for C9: the general conjunct applied at `"a => b"`. -/
theorem resolve_rewrites_braceless_arrow_witness :
    get_path "a => b"
        = String.mk ("a => b".toList.take ((findLastSub arrowChars "a => b".toList).getD 0))
    ∧ get_path "a => b" ≠ "a => b" :=
  resolve_rewrites_braceless_arrow.1 "a => b" (by rfl) (by decide)

/-! ### Characterization of `load_commit_diffs` -/

theorem assemble_foldr_eq (sid : String) (rid : Option String) (hexsha : String)
    (ds : List DiffEntry) (l : List (String × Stats)) :
    (l.foldr
      (fun e acc =>
        match diffsByAPath ds (get_path e.1) with
        | none => (acc.1, get_path e.1 :: acc.2)
        | some d => (mkDiffRec sid rid hexsha e.1 e.2 d :: acc.1, acc.2))
      ([], []))
    = (l.filterMap (fun e =>
          (diffsByAPath ds (get_path e.1)).map (mkDiffRec sid rid hexsha e.1 e.2)),
       (l.filter (fun e => (diffsByAPath ds (get_path e.1)).isNone)).map
          (fun e => get_path e.1)) := by
  induction l with
  | nil => rfl
  | cons e l ih =>
    simp only [List.foldr_cons, ih, List.filterMap_cons, List.filter_cons]
    cases h : diffsByAPath ds (get_path e.1) <;> simp [h]

theorem load_commit_diffs_eq (sid : String) (rid : Option String) (c : CommitObj) :
    load_commit_diffs sid rid c
    = (c.stats_files.filterMap (fun e =>
          (diffsByAPath (commitDiffEntries c) (get_path e.1)).map
            (mkDiffRec sid rid c.hexsha e.1 e.2)),
       (c.stats_files.filter (fun e =>
          (diffsByAPath (commitDiffEntries c) (get_path e.1)).isNone)).map
          (fun e => get_path e.1)) := by
  simpa only [load_commit_diffs] using
    assemble_foldr_eq sid rid c.hexsha (commitDiffEntries c) c.stats_files

/-- C7: for every commit, diff assembly yields a record exactly for the
stats entries whose canonical path has a matching structural diff entry;
a stats entry with no match is skipped and its canonical path is logged
at debug level.  `load_commit_diffs` is a total function, so a missing
match never aborts the run. -/
theorem diff_assembly_skip_policy (sid : String) (rid : Option String) (c : CommitObj) :
    (load_commit_diffs sid rid c).1
      = c.stats_files.filterMap (fun e =>
          (diffsByAPath (commitDiffEntries c) (get_path e.1)).map
            (mkDiffRec sid rid c.hexsha e.1 e.2))
  ∧ (load_commit_diffs sid rid c).2
      = (c.stats_files.filter (fun e =>
          (diffsByAPath (commitDiffEntries c) (get_path e.1)).isNone)).map
          (fun e => get_path e.1) := by
  have h := load_commit_diffs_eq sid rid c
  exact ⟨congrArg Prod.fst h, congrArg Prod.snd h⟩

theorem emptyTreeDiff_flags {t : List (String × Int)} {d : DiffEntry}
    (h : d ∈ emptyTreeDiff t) :
    d.new_file = true ∧ d.deleted_file = false ∧ d.renamed = false := by
  obtain ⟨pe, hpe, rfl⟩ := List.mem_map.mp h
  exact ⟨rfl, rfl, rfl⟩

theorem diffsByAPath_mem {ds : List DiffEntry} {k : String} {d : DiffEntry}
    (h : diffsByAPath ds k = some d) : d ∈ ds ∧ d.a_path = k := by
  have hm := mem_of_getLast?_eq h
  have hf := List.mem_filter.mp hm
  exact ⟨hf.1, by simpa using hf.2⟩

theorem diffsByAPath_emptyTree_isSome {t : List (String × Int)} {p : String}
    (h : p ∈ t.map Prod.fst) : (diffsByAPath (emptyTreeDiff t) p).isSome = true := by
  obtain ⟨pe, hpe, rfl⟩ := List.mem_map.mp h
  have hmem : ({ a_path := pe.1, b_path := pe.1, a_blob := none, b_blob := some pe.2,
                 new_file := true, deleted_file := false, renamed := false } : DiffEntry)
      ∈ emptyTreeDiff t :=
    List.mem_map.mpr ⟨pe, hpe, rfl⟩
  have hfil : ({ a_path := pe.1, b_path := pe.1, a_blob := none, b_blob := some pe.2,
                 new_file := true, deleted_file := false, renamed := false } : DiffEntry)
      ∈ (emptyTreeDiff t).filter (fun d => d.a_path = pe.1) :=
    List.mem_filter.mpr ⟨hmem, by simp⟩
  rw [diffsByAPath, List.getLast?_isSome]
  exact List.ne_nil_of_mem hfil

/-- C1: for every commit with no parents, diff assembly diffs the commit
against the empty tree rather than skipping: every produced diff record
is classified `'A'`, and every file present in the commit whose path
appears as a stats entry (root-commit stats paths carry no rename
notation, so their canonical path is themselves) yields a diff record
classified `'A'`. -/
theorem root_commit_diffs_all_added (sid : String) (rid : Option String) (c : CommitObj)
    (hroot : c.parents = []) :
    (∀ r ∈ (load_commit_diffs sid rid c).1, r.type = 'A')
  ∧ (∀ p st, (p, st) ∈ c.stats_files → get_path p = p → p ∈ c.tree.map Prod.fst →
      ∃ r ∈ (load_commit_diffs sid rid c).1,
        r.tm_id = tm_id.git_commit_diff c.hexsha p ∧ r.type = 'A') := by
  have hds : commitDiffEntries c = emptyTreeDiff c.tree := by
    simp [commitDiffEntries, hroot]
  have hchar := load_commit_diffs_eq sid rid c
  constructor
  · intro r hr
    rw [congrArg Prod.fst hchar] at hr
    obtain ⟨e, he, hmap⟩ := List.mem_filterMap.mp hr
    obtain ⟨d, hd, rfl⟩ := Option.map_eq_some'.mp hmap
    obtain ⟨hdm, hap⟩ := diffsByAPath_mem hd
    rw [hds] at hdm
    obtain ⟨hn, hdel, hren⟩ := emptyTreeDiff_flags hdm
    simp [mkDiffRec, _diff_type, hn, hdel, hren]
  · intro p st hmem hfix htree
    have hsome := diffsByAPath_emptyTree_isSome htree
    rw [← hds] at hsome
    obtain ⟨d, hd⟩ := Option.isSome_iff_exists.mp hsome
    obtain ⟨hdm, hap⟩ := diffsByAPath_mem hd
    rw [hds] at hdm
    obtain ⟨hn, hdel, hren⟩ := emptyTreeDiff_flags hdm
    refine ⟨mkDiffRec sid rid c.hexsha p st d, ?_, rfl, ?_⟩
    · rw [congrArg Prod.fst hchar]
      exact List.mem_filterMap.mpr ⟨(p, st), hmem, by rw [hfix, hd]; rfl⟩
    · simp [mkDiffRec, _diff_type, hn, hdel, hren]

/-- Witness for C1: the root commit `cObj1` (two files, no parents) —
its file `"a.txt"` yields a diff record classified `'A'`. -/
theorem root_commit_diffs_all_added_witness :
    ∃ r ∈ (load_commit_diffs "s" (some "rid") cObj1).1,
      r.tm_id = tm_id.git_commit_diff cObj1.hexsha "a.txt" ∧ r.type = 'A' :=
  (root_commit_diffs_all_added "s" (some "rid") cObj1 rfl).2 "a.txt" ⟨1, 0, 1⟩
    (by decide) (by rfl) (by decide)

/-- C2 counterexample: with requested order `reverse = false`
(newest-first) and an unresolvable primary spec `"master"`, the walker
falls back to `"main"` but yields `[cObjA, cObjB]` — the fallback's
sequence in the *default* order — whereas `"main"`'s sequence in the
requested order is `[cObjB, cObjA]`, a different sequence.  The claim
that the fallback retry is "still in the requested order" is false. -/
theorem fallback_ignores_requested_order :
    iter_commits repoFb "master" false = none
  ∧ iter_commits repoFb "main" false = some [cObjB, cObjA]
  ∧ repo_commits_iter repoFb "master" (some "main") false = [cObjA, cObjB]
  ∧ ([cObjA, cObjB] : List CommitObj) ≠ [cObjB, cObjA] := by
  refine ⟨rfl, rfl, rfl, by decide⟩

/-- C2 (amended): the walker yields the resolved primary spec's sequence
in the requested order; if the primary fails to resolve and a fallback
is provided, it retries exactly once with the fallback *in the walker's
default order* (`reverse = True`, oldest-first) regardless of the
requested order, and the fallback's own failure is not chained further;
if resolution fails and no fallback is provided it yields the empty
sequence without raising. -/
theorem repo_commits_iter_behavior (repo : Repo) (rev : String)
    (fallback_rev : Option String) (reverse : Bool) :
    (∀ cs, iter_commits repo rev reverse = some cs →
        repo_commits_iter repo rev fallback_rev reverse = cs)
  ∧ (iter_commits repo rev reverse = none →
      (∀ fb, fallback_rev = some fb →
          repo_commits_iter repo rev fallback_rev reverse
            = (iter_commits repo fb true).getD [])
      ∧ (fallback_rev = none → repo_commits_iter repo rev fallback_rev reverse = [])) := by
  refine ⟨?_, ?_⟩
  · intro cs h
    simp [repo_commits_iter, h]
  · intro h
    refine ⟨?_, ?_⟩
    · intro fb hfb
      subst hfb
      cases hit : iter_commits repo fb true <;> simp [repo_commits_iter, h, hit]
    · intro hfb
      subst hfb
      simp [repo_commits_iter, h]

/-- Witness for C2 (amended): concrete fallback run — primary `"master"`
unresolvable, fallback `"main"` — the walker yields the fallback's
default-order sequence. -/
theorem repo_commits_iter_behavior_witness :
    repo_commits_iter repoFb "master" (some "main") false
      = (iter_commits repoFb "main" true).getD [] :=
  ((repo_commits_iter_behavior repoFb "master" (some "main") false).2 rfl).1 "main" rfl

/-! ### Pipeline and extractor lemmas -/

theorem repoRecsOf_map_commit (cs : List CommitRec) :
    repoRecsOf (cs.map TypedRec.commit) = [] := by
  induction cs with
  | nil => rfl
  | cons c cs ih => simp [repoRecsOf, List.filterMap_cons, ih]

theorem commitRecsOf_map_commit (cs : List CommitRec) :
    commitRecsOf (cs.map TypedRec.commit) = cs := by
  induction cs with
  | nil => rfl
  | cons c cs ih => simpa [commitRecsOf, List.filterMap_cons] using ih

theorem pipeline_single_repo (records : List TypedRec) (r : RepoRec)
    (h : repoRecsOf records = [r]) :
    ∃ cs : List CommitRec,
      cs.Perm (commitRecsOf records)
      ∧ cs.Pairwise (fun a b => a.authored_date ≤ b.authored_date)
      ∧ pipeline records = .ok
          [⟨GIT_REPO_TYPE, r.tm_id, .repos [r]⟩,
           ⟨GIT_COMMIT_TYPE, r.tm_id, .commits (cs.map stripDiffs)⟩,
           ⟨GIT_COMMIT_DIFF_TYPE, r.tm_id, .diffs (cs.map (fun c => c.diffs)).flatten⟩] := by
  refine ⟨List.insertionSort commitOrder (commitRecsOf records),
    List.perm_insertionSort commitOrder _, ?_, ?_⟩
  · exact List.sorted_insertionSort commitOrder _
  · simp [pipeline, h]

/-- C5: every successful extraction run yields exactly one repo record,
after all commit records; and on a record stream without exactly one
repo record the pipeline aborts with an error before any sink
invocation. -/
theorem single_repo_record_invariant :
    (∀ (self : GitRepoExtractor) (repo : Repo) (rev : String) (fb : Option String)
        (records : List TypedRec),
        GitRepoExtractor.call self repo rev fb = .ok records →
        ∃ (cs : List CommitRec) (r : RepoRec),
          records = cs.map TypedRec.commit ++ [TypedRec.repo r]
          ∧ repoRecsOf records = [r])
  ∧ (∀ records : List TypedRec, (repoRecsOf records).length ≠ 1 →
        ∃ e, pipeline records = .error e) := by
  constructor
  · intro self repo rev fb records h
    simp only [GitRepoExtractor.call] at h
    by_cases ht : truthy (pyOr self.forced_repo_name (get_repo_name_from_remote repo)) = true
    · rw [if_neg (by simp [ht])] at h
      cases h
      refine ⟨_, _, rfl, ?_⟩
      simp [repoRecsOf, List.filterMap_append]
    · rw [if_pos (by simp [Bool.not_eq_true] at ht; simp [ht])] at h
      cases h
  · intro records hne
    rcases hrep : repoRecsOf records with _ | ⟨r, rest⟩
    · exact ⟨"list index out of range", by simp [pipeline, hrep]⟩
    · rcases rest with _ | ⟨r2, rest⟩
      · rw [hrep] at hne; simp at hne
      · refine ⟨"Did not expect more than one repo record", ?_⟩
        have h2 : 2 ≤ (repoRecsOf records).length := by
          rw [hrep]; simp
        simp [pipeline, h2]

set_option maxRecDepth 10000 in
/-- Witness for C5: the concrete extraction run's stream is commit
records followed by exactly one repo record, and the pipeline errors on
an empty stream (zero repo records). -/
theorem single_repo_record_invariant_witness :
    (∃ (cs : List CommitRec) (r : RepoRec),
      recordsEx = cs.map TypedRec.commit ++ [TypedRec.repo r]
      ∧ repoRecsOf recordsEx = [r])
  ∧ (∃ e, pipeline [] = .error e) :=
  ⟨single_repo_record_invariant.1 extractorEx repoEx "master" none recordsEx (by rfl),
   single_repo_record_invariant.2 [] (by decide)⟩

/-- C8: the extractor fails fatally (a `ValueError`, before any record is
emitted — an `Except.error` carries no records) when: no sensor and not
both customer and source ids are provided; no repository id is given and
auto-generation is not requested; or the repository name is unresolvable
(no explicit override and no name inferable from the remote). -/
theorem config_errors_abort :
    (∀ (customer_id source_id repo_tm_id forced rl : Option String) (ag uf : Bool),
        ¬(truthy customer_id = true ∧ truthy source_id = true) →
        GitRepoExtractor.init none customer_id source_id repo_tm_id forced ag rl uf
          = .error "Must either provide a sensor, or both customer and source ids")
  ∧ (∀ (sensor : Option Sensor) (customer_id source_id repo_tm_id forced rl : Option String)
        (uf : Bool),
        (sensor.isSome = true ∨ (truthy customer_id = true ∧ truthy source_id = true)) →
        truthy repo_tm_id = false →
        GitRepoExtractor.init sensor customer_id source_id repo_tm_id forced false rl uf
          = .error "No repo id given or auto-gen requested")
  ∧ (∀ (self : GitRepoExtractor) (repo : Repo) (rev : String) (fb : Option String),
        self.forced_repo_name = none → get_repo_name_from_remote repo = none →
        GitRepoExtractor.call self repo rev fb
          = .error "Could not infer repo name from remote") := by
  refine ⟨?_, ?_, ?_⟩
  · intro customer_id source_id repo_tm_id forced rl ag uf h
    cases hc : truthy customer_id <;> cases hs : truthy source_id <;>
      simp_all [GitRepoExtractor.init]
  · intro sensor customer_id source_id repo_tm_id forced rl uf h hrt
    rcases h with hs | ⟨hc, hsrc⟩
    · obtain ⟨s, rfl⟩ := Option.isSome_iff_exists.mp hs
      simp [GitRepoExtractor.init, hrt]
    · simp [GitRepoExtractor.init, hc, hsrc, hrt]
  · intro self repo rev fb h1 h2
    simp [GitRepoExtractor.call, pyOr, h1, h2, truthy]

/-- Witness for C8: the three configuration failures at concrete inputs —
missing source id, no repo id with auto-generation off, and a repository
(`repoFb`, no remotes) with no inferable name and no override. -/
theorem config_errors_abort_witness :
    GitRepoExtractor.init none (some "cust") none none none true none true
      = .error "Must either provide a sensor, or both customer and source ids"
  ∧ GitRepoExtractor.init none (some "cust") (some "src1") none none false none true
      = .error "No repo id given or auto-gen requested"
  ∧ GitRepoExtractor.call extractorEx repoFb "master" none
      = .error "Could not infer repo name from remote" :=
  ⟨config_errors_abort.1 (some "cust") none none none none true true (by decide),
   config_errors_abort.2.1 none (some "cust") (some "src1") none none none true
     (by decide) (by decide),
   config_errors_abort.2.2 extractorEx repoFb "master" none rfl rfl⟩

/-! ### Remote-name inference lemmas -/

theorem get_repo_name_lookup_none {repo : Repo}
    (h : repo.remotes.lookup "origin" = none) :
    get_repo_name_from_remote repo = none := by
  cases he : repo.remotes.isEmpty <;> simp [get_repo_name_from_remote, he, h]

theorem get_repo_name_lookup_some {repo : Repo} {url : String}
    (h : repo.remotes.lookup "origin" = some url) :
    get_repo_name_from_remote repo
      = if strEndsWith url ".git" = true
        then some (lastSlashSeg (pySplitFirst ".git" url)) else none := by
  rcases hrem : repo.remotes with _ | ⟨hd, tl⟩
  · rw [hrem] at h; simp at h
  · rw [hrem] at h
    cases hew : strEndsWith url ".git" <;>
      simp [get_repo_name_from_remote, hrem, h, hew]

/-- C10: the repository name inferred from the remote is non-`None`
exactly when an `origin` remote exists and its URL ends with `".git"`,
and is then the last `'/'`-separated segment of the URL's text before
`".git"`; a remote URL without the `".git"` suffix makes the inferred
name `None`, so extraction fails unless an explicit name override is
given; and the auto-generated repository id is derived from the
remote-inferred name, independent of any override. -/
theorem remote_repo_name_and_id :
    (∀ repo : Repo, repo.remotes.lookup "origin" = none →
        get_repo_name_from_remote repo = none)
  ∧ (∀ (repo : Repo) (url : String), repo.remotes.lookup "origin" = some url →
        get_repo_name_from_remote repo
          = if strEndsWith url ".git" = true
            then some (lastSlashSeg (pySplitFirst ".git" url)) else none)
  ∧ (∀ (self : GitRepoExtractor) (repo : Repo) (rev : String) (fb : Option String)
        (url : String),
        self.forced_repo_name = none →
        repo.remotes.lookup "origin" = some url →
        strEndsWith url ".git" = false →
        GitRepoExtractor.call self repo rev fb
          = .error "Could not infer repo name from remote")
  ∧ (∀ (self : GitRepoExtractor) (repo : Repo) (n : String),
        GitRepoExtractor.generate_repo_id_from_remote_name
            { self with forced_repo_name := some n } repo
          = tm_id.git_repo self.customer_id self.source_id
              (get_repo_name_from_remote repo)) := by
  refine ⟨fun repo h => get_repo_name_lookup_none h,
          fun repo url h => get_repo_name_lookup_some h, ?_, ?_⟩
  · intro self repo rev fb url h1 h2 h3
    have hname : get_repo_name_from_remote repo = none := by
      rw [get_repo_name_lookup_some h2, h3]
      simp
    simp [GitRepoExtractor.call, pyOr, h1, hname, truthy]
  · intro self repo n
    rfl

set_option maxRecDepth 10000 in
/-- Witness for C10: `repoFb` has no `origin` remote (name `None`);
`repoEx`'s origin URL ends in `.git` (name inferred by the split rule);
`repoNoGit`'s origin URL lacks the `.git` suffix, so extraction with no
override fails; and the generated id for an extractor with a forced name
still uses the remote-inferred name. -/
theorem remote_repo_name_and_id_witness :
    get_repo_name_from_remote repoFb = none
  ∧ (get_repo_name_from_remote repoEx
      = if strEndsWith "https://example.com/demo.git" ".git" = true
        then some (lastSlashSeg (pySplitFirst ".git" "https://example.com/demo.git"))
        else none)
  ∧ GitRepoExtractor.call extractorEx repoNoGit "master" none
      = .error "Could not infer repo name from remote"
  ∧ GitRepoExtractor.generate_repo_id_from_remote_name
        { extractorEx with forced_repo_name := some "forced" } repoEx
      = tm_id.git_repo extractorEx.customer_id extractorEx.source_id
          (get_repo_name_from_remote repoEx) :=
  ⟨remote_repo_name_and_id.1 repoFb rfl,
   remote_repo_name_and_id.2.1 repoEx "https://example.com/demo.git" rfl,
   remote_repo_name_and_id.2.2.1 extractorEx repoNoGit "master" none
     "https://example.com/demo" rfl rfl (by rfl),
   remote_repo_name_and_id.2.2.2 extractorEx repoEx "forced"⟩

set_option maxRecDepth 100000 in
/-- C4: on every record stream holding exactly one repo record, the
pipeline sorts the commit records ascending by `authored_date`, flattens
each commit's embedded diff list into a separate collection while
removing it from the commit record, and invokes the sink exactly once
per record kind — repo, commit, diff, in that order, only after all
records are collected (`pipeline` returns the complete call list or an
error, never a prefix) — each call keyed by the run's single repository
id.  Concretely, for `repoEx` (3 commits touching 5 distinct files, no
renames, no deletions) the sink receives 1 repo record, 3 commit records
without `diffs` lists, and 5 diff records, all referencing the same repo
identifier. -/
theorem pipeline_sorts_flattens_and_stores_once :
    (∀ (records : List TypedRec) (r : RepoRec), repoRecsOf records = [r] →
      ∃ cs : List CommitRec,
        cs.Perm (commitRecsOf records)
        ∧ cs.Pairwise commitOrder
        ∧ pipeline records = .ok
            [⟨GIT_REPO_TYPE, r.tm_id, .repos [r]⟩,
             ⟨GIT_COMMIT_TYPE, r.tm_id, .commits (cs.map stripDiffs)⟩,
             ⟨GIT_COMMIT_DIFF_TYPE, r.tm_id, .diffs (cs.map (fun c => c.diffs)).flatten⟩])
  ∧ (ingest_and_store_repo "cust" "src1" repoEx "master" none none
      = .ok
        [⟨GIT_REPO_TYPE, repoRecEx.tm_id, .repos [repoRecEx]⟩,
         ⟨GIT_COMMIT_TYPE, repoRecEx.tm_id, .commits commitOutsEx⟩,
         ⟨GIT_COMMIT_DIFF_TYPE, repoRecEx.tm_id, .diffs diffRecsEx⟩]
     ∧ commitOutsEx.length = 3 ∧ diffRecsEx.length = 5
     ∧ repoRecEx.tm_id = some (tm_id.git_repo "cust" "src1" (some "demo"))
     ∧ (∀ x ∈ commitOutsEx, x.repo_id = repoRecEx.tm_id)
     ∧ (∀ x ∈ diffRecsEx, x.repo_id = repoRecEx.tm_id)
     ∧ commitOutsEx.map (fun x => x.authored_date) = [100, 200, 300]) :=
  ⟨fun records r h => pipeline_single_repo records r h,
   by rfl, rfl, rfl, rfl, by decide, by decide, rfl⟩

/-- Witness for C4: the general pipeline conjunct applied to the
single-record stream `[TypedRec.repo repoRecEx]`. -/
theorem pipeline_sorts_flattens_and_stores_once_witness :
    ∃ cs : List CommitRec,
      cs.Perm (commitRecsOf [TypedRec.repo repoRecEx])
      ∧ cs.Pairwise commitOrder
      ∧ pipeline [TypedRec.repo repoRecEx] = .ok
          [⟨GIT_REPO_TYPE, repoRecEx.tm_id, .repos [repoRecEx]⟩,
           ⟨GIT_COMMIT_TYPE, repoRecEx.tm_id, .commits (cs.map stripDiffs)⟩,
           ⟨GIT_COMMIT_DIFF_TYPE, repoRecEx.tm_id,
             .diffs (cs.map (fun c => c.diffs)).flatten⟩] :=
  pipeline_sorts_flattens_and_stores_once.1 [TypedRec.repo repoRecEx] repoRecEx (by rfl)
